import Mathlib

/-!
Verification of the adaptive steady-state detection engine
(`app/engine/steady_state.py`) of the cardiovascular-monitor repository.

The engine is shallowly embedded: Python floats become rationals (`ℚ`),
`datetime` values become rationals counting seconds (differences are turned
into days by dividing by 86400 exactly as the source does), dictionaries
keyed by the fixed metric set become structures with one `Option` field per
metric, and Python's stable `sorted` becomes `List.insertionSort` (which is
also stable: an element is inserted before the first element it is `≤` to).
-/

namespace SteadyState

/-- The fixed metric set, `METRICS = ["sbp", "dbp", "pp", "hr"]`. -/
inductive Metric where
  | sbp
  | dbp
  | pp
  | hr
deriving DecidableEq, Repr

/-- `METRICS` list, in source order. -/
def METRICS : List Metric := [Metric.sbp, Metric.dbp, Metric.pp, Metric.hr]

/-- `METRIC_WEIGHTS` from the source: sbp 1.0, dbp 1.0, pp 1.5, hr 0.8. -/
def METRIC_WEIGHTS (m : Metric) : ℚ :=
  match m with
  | Metric.sbp => 1
  | Metric.dbp => 1
  | Metric.pp => 3/2
  | Metric.hr => 4/5

/-- A measurement record: `datetime` in seconds, optional metric values
(the source reads them with `dict.get` and filters `None`), and the
symptom/event tag list. -/
structure Record where
  datetime : ℚ
  sbp : Option ℚ
  dbp : Option ℚ
  pp : Option ℚ
  hr : Option ℚ
  events : List String
deriving DecidableEq, Repr, Inhabited

/-- Metric lookup on a record, mirroring `r.get(metric)`. -/
def Record.get (r : Record) (m : Metric) : Option ℚ :=
  match m with
  | Metric.sbp => r.sbp
  | Metric.dbp => r.dbp
  | Metric.pp => r.pp
  | Metric.hr => r.hr

/-- `_safe_get_metric_values`: extract the present values of one metric. -/
def safe_get_metric_values (records : List Record) (m : Metric) : List ℚ :=
  records.filterMap (fun r => r.get m)

/-- One profile entry: `{"median": .., "q1": .., "q3": .., "iqr": ..}`. -/
structure Stats where
  median : ℚ
  q1 : ℚ
  q3 : ℚ
  iqr : ℚ
deriving DecidableEq, Repr, Inhabited

/-- A profile: the dict `metric -> Stats`, with keys a subset of `METRICS`. -/
structure Profile where
  sbp : Option Stats
  dbp : Option Stats
  pp : Option Stats
  hr : Option Stats
deriving DecidableEq, Repr, Inhabited

/-- Profile lookup, mirroring `profile.get(m)` / `m in profile`. -/
def Profile.get (p : Profile) (m : Metric) : Option Stats :=
  match m with
  | Metric.sbp => p.sbp
  | Metric.dbp => p.dbp
  | Metric.pp => p.pp
  | Metric.hr => p.hr

/-- The empty profile (`{}` in the source). -/
def emptyProfile : Profile := ⟨none, none, none, none⟩

/-- `statistics.median` on a list of rationals: sort, take the middle
element for odd length, the mean of the two middle elements for even
length.  (The source only calls it on non-empty lists; on `[]` we return
a junk value 0.) -/
def pymedian (l : List ℚ) : ℚ :=
  let s := l.insertionSort (· ≤ ·)
  let n := s.length
  if n % 2 = 1 then s.getD (n / 2) 0
  else (s.getD (n / 2 - 1) 0 + s.getD (n / 2) 0) / 2

/-- The nearest-rank index of `_percentile`: `int(p * (len - 1) + 0.5)`
(the argument is nonnegative at every call, so `int` truncation is the
floor). -/
def percentileIdx (p : ℚ) (n : ℕ) : ℕ :=
  (⌊p * ((n : ℚ) - 1) + 1/2⌋).toNat

/-- `_percentile` of `_compute_profile`: nearest-rank percentile of a
sorted value list. -/
def percentile (sorted_vals : List ℚ) (p : ℚ) : ℚ :=
  if sorted_vals = [] then 0
  else sorted_vals.getD (percentileIdx p sorted_vals.length) 0

/-- The per-metric body of `_compute_profile`: sort the present values;
`None` when no value is present (`if n == 0: continue`), else the
median/q1/q3/iqr entry. -/
def profileEntry (values : List ℚ) : Option Stats :=
  let values_sorted := values.insertionSort (· ≤ ·)
  if values_sorted = [] then none
  else
    let q1 := percentile values_sorted (1/4)
    let q3 := percentile values_sorted (3/4)
    some { median := pymedian values_sorted, q1 := q1, q3 := q3,
           iqr := max (q3 - q1) 0 }

/-- `_compute_profile`: quantile profile of a record subset; the empty
profile for an empty subset. -/
def compute_profile (records : List Record) : Profile :=
  if records.length = 0 then emptyProfile
  else
    { sbp := profileEntry (safe_get_metric_values records Metric.sbp)
      dbp := profileEntry (safe_get_metric_values records Metric.dbp)
      pp := profileEntry (safe_get_metric_values records Metric.pp)
      hr := profileEntry (safe_get_metric_values records Metric.hr) }

/-- `_compute_stability`: `1 / (1 + weighted mean IQR)`; 0 for an empty
profile (equivalently, when the total weight is 0). -/
def compute_stability (p : Profile) : ℚ :=
  if p = emptyProfile then 0
  else
    let total_iqr := METRICS.foldl
      (fun acc m => match p.get m with
        | some st => acc + st.iqr * METRIC_WEIGHTS m
        | none => acc) 0
    let total_weight := METRICS.foldl
      (fun acc m => match p.get m with
        | some _ => acc + METRIC_WEIGHTS m
        | none => acc) 0
    if total_weight = 0 then 0
    else 1 / (1 + total_iqr / total_weight)

/-- The sort key order of `_sort_records` (all records carry a parsed
datetime in the embedding). -/
def dtLe (a b : Record) : Prop := a.datetime ≤ b.datetime

instance : DecidableRel dtLe := fun a b => inferInstanceAs (Decidable (_ ≤ _))

instance : IsTotal Record dtLe := ⟨fun a b => le_total a.datetime b.datetime⟩

instance : IsTrans Record dtLe := ⟨fun _ _ _ h1 h2 => le_trans h1 h2⟩

/-- `_sort_records`: stable sort by datetime (Python `sorted` is stable,
as is `insertionSort`). -/
def sort_records (records : List Record) : List Record :=
  records.insertionSort dtLe

/-- `_get_max_gap_days`: the largest gap (in days) between chronologically
adjacent records of the window; 0 for fewer than two records. -/
def get_max_gap_days (records : List Record) : ℚ :=
  (records.zip records.tail).foldl
    (fun max_gap ab =>
      let gap := (ab.2.datetime - ab.1.datetime) / 86400
      if gap > max_gap then gap else max_gap) 0

/-- A sliding window, as built by `_slide_windows` (the `end` key of the
source dict is called `stop` here, `end` being reserved). -/
structure Window where
  start_idx : ℕ
  end_idx : ℕ
  start : ℚ
  stop : ℚ
  profile : Profile
  stability : ℚ
  max_gap_days : ℚ
  time_span_days : ℚ
deriving DecidableEq, Repr, Inhabited

/-- One loop iteration of `_slide_windows`: the window over
`records[start:start+window_size]` of the sorted list. -/
def mkWindow (sorted : List Record) (window_size start : ℕ) : Window :=
  let w_records := (sorted.drop start).take window_size
  let profile := compute_profile w_records
  let stability0 := compute_stability profile
  let max_gap := get_max_gap_days w_records
  let stability :=
    if max_gap > 7 then stability0 / (1 + (max_gap - 7)) else stability0
  { start_idx := start
    end_idx := start + window_size
    start := (sorted.getD start default).datetime
    stop := (sorted.getD (start + window_size - 1) default).datetime
    profile := profile
    stability := stability
    max_gap_days := max_gap
    time_span_days :=
      ((sorted.getD (start + window_size - 1) default).datetime -
        (sorted.getD start default).datetime) / 86400 }

/-- `_slide_windows`: all count-based sliding windows over the sorted
records; `[]` when there are fewer records than the window size. -/
def slide_windows (records : List Record) (window_size : ℕ) : List Window :=
  let sorted := sort_records records
  if sorted.length < window_size then []
  else (List.range (sorted.length - window_size + 1)).map
    (mkWindow sorted window_size)

/-- `_select_baseline`: Python `max(windows, key=stability)` keeps the
first window of maximal stability (it replaces only on strict increase).
`none` on the empty list (where the source would raise). -/
def select_baseline (windows : List Window) : Option Window :=
  windows.foldl
    (fun acc w => match acc with
      | none => some w
      | some b => if w.stability > b.stability then some w else some b) none

/-- The candidate order of `_select_recent`: ascending absolute time
distance from `last_time`. -/
def distLe (last_time : ℚ) (a b : Window) : Prop :=
  |last_time - a.stop| ≤ |last_time - b.stop|

instance (t : ℚ) : DecidableRel (distLe t) :=
  fun a b => inferInstanceAs (Decidable (_ ≤ _))

instance (t : ℚ) : IsTotal Window (distLe t) := ⟨fun _ _ => le_total _ _⟩

instance (t : ℚ) : IsTrans Window (distLe t) := ⟨fun _ _ _ h1 h2 => le_trans h1 h2⟩

/-- The candidate scan of `_select_recent`: the first window in the list
whose stability reaches the floor. -/
def findQualified (floor_stability : ℚ) : List Window → Option Window
  | [] => none
  | w :: rest =>
    if w.stability ≥ floor_stability then some w
    else findQualified floor_stability rest

/-- `_select_recent`: among the windows sorted by distance from the last
window's end, the first whose stability reaches half the baseline's;
otherwise the nearest window.  `none` on the empty list (where the source
would raise on `windows[-1]`). -/
def select_recent (windows : List Window) (baseline : Window) : Option Window :=
  match windows.getLast? with
  | none => none
  | some lastw =>
    let candidates := windows.insertionSort (distLe lastw.stop)
    match findQualified (1/2 * baseline.stability) candidates with
    | some w => some w
    | none => candidates.head?

/-- `_estimate_user_variability`: weighted sum, over the metrics, of the
median IQR across the atomic windows (5 when a metric never appears);
10 when there are no windows. -/
def estimate_user_variability (windows : List Window) : ℚ :=
  if windows = [] then 10
  else METRICS.foldl
    (fun acc m =>
      let vals := windows.filterMap (fun w => (w.profile.get m).map Stats.iqr)
      let metric_vol := if vals = [] then 5 else pymedian vals
      acc + metric_vol * METRIC_WEIGHTS m) 0

/-- The running accumulator of the `_segment_states` walk:
`{"start", "end", "profile_sum", "count"}` (the `profile_sum` dict is a
partial map from metrics to sums of window medians). -/
structure RawSeg where
  start : ℚ
  stop : ℚ
  profile_sum : Metric → Option ℚ
  count : ℕ

/-- The window medians dict `{m: profile[m]["median"] for m in profile}`. -/
def mediansOf (p : Profile) : Metric → Option ℚ :=
  fun m => (p.get m).map Stats.median

/-- The weighted difference of `_segment_states` between a window's
medians and the current segment's running averages; a metric missing from
`profile_sum` contributes `profile_sum.get(m, 0.0)` = 0 to the average. -/
def diffOf (medians : Metric → Option ℚ) (seg : RawSeg) : ℚ :=
  METRICS.foldl
    (fun acc m => match medians m with
      | none => acc
      | some v =>
        let prev_avg := (seg.profile_sum m).getD 0 / ((max 1 seg.count : ℕ) : ℚ)
        acc + |v - prev_avg| * METRIC_WEIGHTS m) 0

/-- One iteration of the `_segment_states` walk over the atomic windows:
skip empty-profile windows; open a segment if none is current; otherwise
extend on `diff < threshold` without a forced (>7-day) break, else close
the current segment and open a new one at this window. -/
def segStep (dynamic_threshold : ℚ) (acc : List RawSeg × Option RawSeg)
    (w : Window) : List RawSeg × Option RawSeg :=
  if w.profile = emptyProfile then acc
  else
    let medians := mediansOf w.profile
    match acc.2 with
    | none => (acc.1, some ⟨w.start, w.stop, medians, 1⟩)
    | some current_seg =>
      let days_gap := (w.start - current_seg.stop) / 86400
      let force_break := days_gap > 7
      let diff := diffOf medians current_seg
      if diff < dynamic_threshold ∧ ¬force_break then
        (acc.1, some
          { start := current_seg.start
            stop := w.stop
            profile_sum := fun m => match medians m with
              | none => current_seg.profile_sum m
              | some v => some ((current_seg.profile_sum m).getD 0 + v)
            count := current_seg.count + 1 })
      else
        (acc.1 ++ [current_seg], some ⟨w.start, w.stop, medians, 1⟩)

/-- The raw segments produced by the walk (the trailing open segment is
closed at the end). -/
def rawSegments (dynamic_threshold : ℚ) (windows_base : List Window) :
    List RawSeg :=
  let walked := windows_base.foldl (segStep dynamic_threshold) ([], none)
  walked.1 ++ walked.2.toList

/-- Segment type: platform (believable steady state) or change. -/
inductive SegType where
  | platform
  | change
deriving DecidableEq, Repr, Inhabited

/-- A closed segment after profile recomputation over raw records. -/
structure Segment where
  start : ℚ
  stop : ℚ
  profile : Profile
  stability : ℚ
  count : ℕ
  type : SegType
deriving DecidableEq, Repr, Inhabited

/-- The record comprehension of `_segment_states`' finalization:
`[r for r in records if seg.start <= r.datetime <= seg.stop]`. -/
def recordsWithin (seg_start seg_stop : ℚ) : List Record → List Record
  | [] => []
  | r :: rest =>
    if seg_start ≤ r.datetime ∧ r.datetime ≤ seg_stop then
      r :: recordsWithin seg_start seg_stop rest
    else recordsWithin seg_start seg_stop rest

/-- Finalization of one raw segment: recompute profile and stability from
the raw records inside the span; `none` when no record falls inside
(`if not seg_records: continue`). -/
def finalizeSeg (records : List Record) (seg : RawSeg) : Option Segment :=
  let seg_records := recordsWithin seg.start seg.stop records
  if seg_records = [] then none
  else
    let seg_profile := compute_profile seg_records
    let seg_stability := compute_stability seg_profile
    let is_platform := seg_records.length ≥ 5 ∧ seg_stability ≥ 1/10
    some
      { start := seg.start
        stop := seg.stop
        profile := seg_profile
        stability := seg_stability
        count := seg_records.length
        type := if is_platform then SegType.platform else SegType.change }

/-- Per-metric median delta between two profiles, present only when the
metric is in both. -/
def deltaAt (from_p to_p : Profile) (m : Metric) : Option ℚ :=
  match from_p.get m, to_p.get m with
  | some fs, some ts => some (ts.median - fs.median)
  | _, _ => none

/-- The `magnitude` dict of a transition. -/
structure MetricDeltas where
  sbp : Option ℚ
  dbp : Option ℚ
  pp : Option ℚ
  hr : Option ℚ
deriving DecidableEq, Repr

/-- A transition between adjacent final segments (the nested `period`
dict is flattened into `period_start`/`period_end`). -/
structure Transition where
  from_idx : ℕ
  to_idx : ℕ
  period_start : ℚ
  period_end : ℚ
  magnitude : MetricDeltas
deriving DecidableEq, Repr

/-- The transition list between chronologically adjacent final segments. -/
def transitionsOf (final_segments : List Segment) : List Transition :=
  (List.range (final_segments.length - 1)).map
    (fun i =>
      let from_seg := final_segments.getD i default
      let to_seg := final_segments.getD (i + 1) default
      { from_idx := i
        to_idx := i + 1
        period_start := from_seg.stop
        period_end := to_seg.start
        magnitude :=
          { sbp := deltaAt from_seg.profile to_seg.profile Metric.sbp
            dbp := deltaAt from_seg.profile to_seg.profile Metric.dbp
            pp := deltaAt from_seg.profile to_seg.profile Metric.pp
            hr := deltaAt from_seg.profile to_seg.profile Metric.hr } })

/-- `_segment_states`: the clustering walk plus finalization and
transition construction; `([], [])` when there are no atomic windows. -/
def segment_states (records : List Record) (windows_base : List Window)
    (dynamic_threshold : ℚ) : List Segment × List Transition :=
  if windows_base = [] then ([], [])
  else
    let final_segments :=
      (rawSegments dynamic_threshold windows_base).filterMap (finalizeSeg records)
    (final_segments, transitionsOf final_segments)

/-- Event-tag normalization `str(e).lower().strip()`. -/
def normEvent (s : String) : String := s.toLower.trim

/-- Insert into the set (modelled as a duplicate-free list in insertion
order) if not already present. -/
def addNew (acc : List String) (e : String) : List String :=
  if e ∈ acc then acc else acc ++ [e]

/-- The symptom set of one segment: normalized events of the records
falling inside the segment span. -/
def segEvents (records : List Record) (seg : Segment) : List String :=
  records.foldl
    (fun acc r =>
      if seg.start ≤ r.datetime ∧ r.datetime ≤ seg.stop then
        r.events.foldl (fun a e => addNew a (normEvent e)) acc
      else acc) []

/-- `_events_by_segment`: per-segment symptom sets, plus the acute-response
patch folding the latest record's events into the result. -/
def events_by_segment (records : List Record) (segments : List Segment) :
    List (List String) :=
  let results := segments.map (segEvents records)
  match records.getLast? with
  | none => results
  | some latest_rec =>
    if latest_rec.events = [] then results
    else
      let latest_evs_clean := latest_rec.events.map normEvent
      if results = [] then [latest_evs_clean]
      else results.dropLast ++
        [latest_evs_clean.foldl addNew ((results.getLast?).getD [])]

/-- Trajectory step status. -/
inductive TrajStatus where
  | stable
  | up
  | down
deriving DecidableEq, Repr

/-- One trajectory entry for a metric at one scale. -/
structure TrajStep where
  window : String
  status : TrajStatus
  delta : ℚ
  baseline : ℚ
  recent : ℚ
deriving DecidableEq, Repr

/-- The trajectory dict `metric -> list of steps`. -/
structure TrajMap where
  sbp : List TrajStep
  dbp : List TrajStep
  pp : List TrajStep
  hr : List TrajStep
deriving DecidableEq, Repr

/-- Trajectory lookup. -/
def TrajMap.get (t : TrajMap) (m : Metric) : List TrajStep :=
  match m with
  | Metric.sbp => t.sbp
  | Metric.dbp => t.dbp
  | Metric.pp => t.pp
  | Metric.hr => t.hr

/-- `trajectory[m].append(step)`. -/
def TrajMap.append1 (t : TrajMap) (m : Metric) (s : TrajStep) : TrajMap :=
  match m with
  | Metric.sbp => { t with sbp := t.sbp ++ [s] }
  | Metric.dbp => { t with dbp := t.dbp ++ [s] }
  | Metric.pp => { t with pp := t.pp ++ [s] }
  | Metric.hr => { t with hr := t.hr ++ [s] }

/-- The per-scale trajectory update of `analyze_steady_states`: one step
per metric present in both the baseline and the recent profile. -/
def trajUpdate (label : String) (baseline recent : Window) (t : TrajMap) :
    TrajMap :=
  METRICS.foldl
    (fun t m =>
      match baseline.profile.get m, recent.profile.get m with
      | some bp, some rp =>
        let delta := rp.median - bp.median
        let status :=
          if |delta| < 3 then TrajStatus.stable
          else if delta > 0 then TrajStatus.up else TrajStatus.down
        t.append1 m ⟨label, status, delta, bp.median, rp.median⟩
      | _, _ => t) t

/-- One scale's baseline/recent pair in the `windows` output. -/
structure ScaleResult where
  baseline : Window
  recent : Window
deriving DecidableEq, Repr

/-- `WINDOW_SIZES`, in source (dict insertion) order. -/
def WINDOW_SIZES : List (String × ℕ) :=
  [("3pt", 3), ("5pt", 5), ("10pt", 10), ("20pt", 20), ("30pt", 30)]

/-- One iteration of the multi-scale loop of `analyze_steady_states`:
skip scales without windows, otherwise record the baseline/recent pair
and extend the trajectory. -/
def scaleStep (records : List Record)
    (acc : List (String × ScaleResult) × TrajMap) (ls : String × ℕ) :
    List (String × ScaleResult) × TrajMap :=
  let windows := slide_windows records ls.2
  match select_baseline windows with
  | none => acc
  | some baseline =>
    match select_recent windows baseline with
    | none => acc
    | some recent =>
      (acc.1 ++ [(ls.1, ⟨baseline, recent⟩)], trajUpdate ls.1 baseline recent acc.2)

/-- The full result bundle of `analyze_steady_states`. -/
structure AnalysisResult where
  windows : List (String × ScaleResult)
  trajectory : TrajMap
  segments : List Segment
  transitions : List Transition
  events_by_segment : List (List String)
deriving DecidableEq, Repr

/-- The body of `analyze_steady_states` on the already-sorted records
(the source reassigns `records = _sort_records(records)` first and uses
only the sorted list afterwards). -/
def analyzeSorted (records : List Record) : AnalysisResult :=
  let scanned := WINDOW_SIZES.foldl (scaleStep records) ([], ⟨[], [], [], []⟩)
  let windows_base := slide_windows records ((WINDOW_SIZES.lookup "5pt").getD 0)
  let user_volatility := estimate_user_variability windows_base
  let seg_threshold := max 8 (min (user_volatility * (3/2)) 25)
  let st := segment_states records windows_base seg_threshold
  { windows := scanned.1
    trajectory := scanned.2
    segments := st.1
    transitions := st.2
    events_by_segment := events_by_segment records st.1 }

/-- `analyze_steady_states`: `none` models the `{}` returned on empty
input; otherwise the result bundle over the sorted records. -/
def analyze_steady_states (records : List Record) : Option AnalysisResult :=
  if records = [] then none
  else some (analyzeSorted (sort_records records))

/-- Proof helper: the single-metric summand of the `diff` loop of
`_segment_states`. -/
def contrib (medians : Metric → Option ℚ) (seg : RawSeg) (m : Metric) : ℚ :=
  match medians m with
  | none => 0
  | some v =>
    |v - (seg.profile_sum m).getD 0 / ((max 1 seg.count : ℕ) : ℚ)| *
      METRIC_WEIGHTS m

/-- Proof helper: the events list of the last record (empty when there is
no record), used to state the amended alignment property of
`_events_by_segment`. -/
def latestEvents (records : List Record) : List String :=
  match records.getLast? with
  | none => []
  | some latest_rec => latest_rec.events

/-! ### Concrete inputs used by witnesses and counterexamples -/

/-- A record with all four metrics present and no events. -/
def exRec (t sbp dbp pp hr : ℚ) : Record :=
  ⟨t, some sbp, some dbp, some pp, some hr, []⟩

/-- Three fully-populated records on consecutive days. -/
def c1ex : List Record :=
  [exRec 0 100 60 40 70, exRec 86400 110 70 40 72, exRec 172800 120 80 40 74]

/-- Three records whose middle gap is 10 days (so every size-3 window has
`max_gap_days` above 7). -/
def c5ex : List Record :=
  [exRec 0 100 60 40 70, exRec 864000 110 70 40 72, exRec 950400 120 80 40 74]

/-- A single record carrying a symptom tag. -/
def c7ex : List Record :=
  [⟨0, some 130, some 85, some 45, some 75, ["dizzy"]⟩]

/-- Four records, the first two sharing one timestamp: list one. -/
def c6L1 : List Record :=
  [exRec 0 100 80 40 70, exRec 0 200 80 40 70,
   exRec 86400 110 80 40 70, exRec 172800 111 80 40 70]

/-- The same four records with the two equal-timestamp records swapped. -/
def c6L2 : List Record :=
  [exRec 0 200 80 40 70, exRec 0 100 80 40 70,
   exRec 86400 110 80 40 70, exRec 172800 111 80 40 70]

/-- Two records on distinct days, later first (C6 witness input). -/
def c6W1 : List Record := [exRec 86400 110 70 40 72, exRec 0 100 60 40 70]

/-- The other order of `c6W1`. -/
def c6W2 : List Record := [exRec 0 100 60 40 70, exRec 86400 110 70 40 72]

/-- Three records with no metric values at all (only timestamps). -/
def noMetricsRecs : List Record :=
  [⟨0, none, none, none, none, []⟩, ⟨86400, none, none, none, none, []⟩,
   ⟨172800, none, none, none, none, []⟩]

/-- Evaluated profile of the first size-3 window of `c6L1` and `c6L2`
(same record multiset in both). -/
def c6P0 : Profile :=
  ⟨some ⟨110, 110, 200, 90⟩, some ⟨80, 80, 80, 0⟩, some ⟨40, 40, 40, 0⟩,
   some ⟨70, 70, 70, 0⟩⟩

/-- Evaluated profile of the second size-3 window of `c6L1`. -/
def c6P1 : Profile :=
  ⟨some ⟨111, 111, 200, 89⟩, some ⟨80, 80, 80, 0⟩, some ⟨40, 40, 40, 0⟩,
   some ⟨70, 70, 70, 0⟩⟩

/-- Evaluated profile of the second size-3 window of `c6L2`. -/
def c6P2 : Profile :=
  ⟨some ⟨110, 110, 111, 1⟩, some ⟨80, 80, 80, 0⟩, some ⟨40, 40, 40, 0⟩,
   some ⟨70, 70, 70, 0⟩⟩

/-- Evaluated first size-3 window of `c6L1`/`c6L2`. -/
def c6win0 : Window := ⟨0, 3, 0, 86400, c6P0, 43/943, 1, 1⟩

/-- Evaluated second size-3 window of `c6L1`. -/
def c6win1 : Window := ⟨1, 4, 0, 172800, c6P1, 43/933, 1, 2⟩

/-- Evaluated second size-3 window of `c6L2`. -/
def c6win2 : Window := ⟨1, 4, 0, 172800, c6P2, 43/53, 1, 2⟩

/-- The trajectory produced by scale "3pt" on `c6L1` (all deltas zero,
baselines from `c6P1`). -/
def c6traj1 : TrajMap :=
  ⟨[⟨"3pt", TrajStatus.stable, 0, 111, 111⟩],
   [⟨"3pt", TrajStatus.stable, 0, 80, 80⟩],
   [⟨"3pt", TrajStatus.stable, 0, 40, 40⟩],
   [⟨"3pt", TrajStatus.stable, 0, 70, 70⟩]⟩

/-- The trajectory produced by scale "3pt" on `c6L2` (baselines from
`c6P2`). -/
def c6traj2 : TrajMap :=
  ⟨[⟨"3pt", TrajStatus.stable, 0, 110, 110⟩],
   [⟨"3pt", TrajStatus.stable, 0, 80, 80⟩],
   [⟨"3pt", TrajStatus.stable, 0, 40, 40⟩],
   [⟨"3pt", TrajStatus.stable, 0, 70, 70⟩]⟩

/-- A running segment accumulator ending at time 0 with sbp median 120
(C4 witness input). -/
def c4seg : RawSeg := ⟨0, 0, fun _ => some 120, 1⟩

/-- A window starting 9 days after `c4seg` ends, with the same sbp median
(C4 witness input). -/
def c4win : Window :=
  ⟨0, 3, 777600, 950400, ⟨some ⟨120, 120, 120, 0⟩, none, none, none⟩, 1, 0, 2⟩

/-- Window medians carrying an hr value (C10 witness input). -/
def c10medians : Metric → Option ℚ :=
  fun m => match m with
  | Metric.hr => some 70
  | _ => some 100

/-- A segment accumulator with no hr key in its sums (C10 witness input). -/
def c10seg : RawSeg :=
  ⟨0, 86400, fun m => match m with | Metric.hr => none | _ => some 100, 2⟩

/-! ### Basic lemmas -/

lemma length_sort_records (records : List Record) :
    (sort_records records).length = records.length :=
  (List.perm_insertionSort dtLe records).length_eq

lemma sort_records_eq_nil_iff (records : List Record) :
    sort_records records = [] ↔ records = [] := by
  constructor
  · intro h
    have := length_sort_records records
    rw [h] at this
    exact List.length_eq_zero.mp this.symm
  · intro h
    subst h
    rfl

lemma mem_sort_records {r : Record} {records : List Record} :
    r ∈ sort_records records ↔ r ∈ records :=
  (List.perm_insertionSort dtLe records).mem_iff

lemma lookup_5pt : (List.lookup "5pt" WINDOW_SIZES).getD 0 = 5 := rfl

lemma lookup_5pt_expanded :
    (List.lookup "5pt"
      [("3pt", 3), ("5pt", 5), ("10pt", 10), ("20pt", 20), ("30pt", 30)]).getD 0
      = 5 := rfl

/-! ### Evaluation lemmas for the `c1ex` input -/

lemma sort_c1ex : sort_records c1ex = c1ex := rfl

lemma profileEntry_c1_sbp :
    profileEntry [100, 110, 120] = some ⟨110, 110, 120, 10⟩ := by
  unfold profileEntry
  try simp [percentile, percentileIdx, pymedian]
  try norm_num
  try simp
  try norm_num

lemma profileEntry_c1_dbp :
    profileEntry [60, 70, 80] = some ⟨70, 70, 80, 10⟩ := by
  unfold profileEntry
  try simp [percentile, percentileIdx, pymedian]
  try norm_num
  try simp
  try norm_num

lemma profileEntry_c1_pp :
    profileEntry [40, 40, 40] = some ⟨40, 40, 40, 0⟩ := by
  unfold profileEntry
  try simp [percentile, percentileIdx, pymedian]
  try norm_num
  try simp
  try norm_num

lemma profileEntry_c1_hr :
    profileEntry [70, 72, 74] = some ⟨72, 72, 74, 2⟩ := by
  unfold profileEntry
  try simp [percentile, percentileIdx, pymedian]
  try norm_num
  try simp
  try norm_num

lemma compute_profile_c1ex :
    compute_profile c1ex =
      ⟨some ⟨110, 110, 120, 10⟩, some ⟨70, 70, 80, 10⟩,
       some ⟨40, 40, 40, 0⟩, some ⟨72, 72, 74, 2⟩⟩ := by
  unfold compute_profile
  simp [c1ex, exRec, safe_get_metric_values, Record.get,
    profileEntry_c1_sbp, profileEntry_c1_dbp, profileEntry_c1_pp,
    profileEntry_c1_hr]

lemma compute_stability_c1profile :
    compute_stability
      ⟨some ⟨110, 110, 120, 10⟩, some ⟨70, 70, 80, 10⟩,
       some ⟨40, 40, 40, 0⟩, some ⟨72, 72, 74, 2⟩⟩ = 43/259 := by
  unfold compute_stability
  simp [emptyProfile, METRICS, Profile.get, METRIC_WEIGHTS]
  try norm_num

lemma max_gap_c1ex : get_max_gap_days c1ex = 1 := by
  unfold get_max_gap_days
  simp [c1ex, exRec]
  try norm_num

lemma mkWindow_c1ex :
    mkWindow c1ex 3 0 =
      ⟨0, 3, 0, 172800,
        ⟨some ⟨110, 110, 120, 10⟩, some ⟨70, 70, 80, 10⟩,
         some ⟨40, 40, 40, 0⟩, some ⟨72, 72, 74, 2⟩⟩, 43/259, 1, 2⟩ := by
  simp only [mkWindow]
  rw [show (c1ex.drop 0).take 3 = c1ex from rfl,
    show c1ex.getD 0 default = exRec 0 100 60 40 70 from rfl,
    show c1ex.getD (0 + 3 - 1) default = exRec 172800 120 80 40 74 from rfl,
    compute_profile_c1ex, compute_stability_c1profile, max_gap_c1ex]
  simp [exRec]
  try norm_num

lemma slide_windows_c1ex_3 : slide_windows c1ex 3 = [mkWindow c1ex 3 0] := by
  unfold slide_windows
  rw [sort_c1ex]
  simp [show c1ex.length = 3 from rfl, show List.range 1 = [0] from rfl]

end SteadyState

namespace SteadyState

/-- C9.  For a record list of length `n` and window size `w`, the slicer
produces `n - w + 1` windows when `n ≥ w` and none otherwise (stated as a
single equation, so both halves of the claim are covered without a
hypothesis; the internal defensive sort does not change the length). -/
theorem claim_C9_window_count (records : List Record) (window_size : ℕ) :
    (slide_windows records window_size).length =
      if records.length < window_size then 0
      else records.length - window_size + 1 := by
  simp only [slide_windows]
  rw [length_sort_records records]
  split
  · rfl
  · rw [List.length_map, List.length_range]

lemma diffOf_eq_contrib (medians : Metric → Option ℚ) (seg : RawSeg) :
    diffOf medians seg =
      contrib medians seg Metric.sbp + contrib medians seg Metric.dbp +
        contrib medians seg Metric.pp + contrib medians seg Metric.hr := by
  simp only [diffOf, METRICS, List.foldl_cons, List.foldl_nil, contrib]
  cases h1 : medians Metric.sbp <;> cases h2 : medians Metric.dbp <;>
    cases h3 : medians Metric.pp <;> cases h4 : medians Metric.hr <;>
      simp [h1, h2, h3, h4] <;> ring

end SteadyState

namespace SteadyState

/-- C10.  In the `_segment_states` diff computation, a metric `m` present
in the window's medians but absent from the current segment's accumulated
sums has its running average read as 0 (`profile_sum.get(m, 0.0)`), so it
contributes exactly `weight(m) * |median(m)|` to the weighted difference:
removing `m` from the medians lowers `diff` by that amount. -/
theorem claim_C10_missing_metric_contribution (medians : Metric → Option ℚ)
    (seg : RawSeg) (m : Metric) (v : ℚ) (hm : medians m = some v)
    (habs : seg.profile_sum m = none) :
    diffOf medians seg =
      diffOf (fun m2 => if m2 = m then none else medians m2) seg +
        METRIC_WEIGHTS m * |v| := by
  rw [diffOf_eq_contrib, diffOf_eq_contrib]
  have key : contrib medians seg m = METRIC_WEIGHTS m * |v| := by
    simp only [contrib, hm, habs, Option.getD_none, zero_div, sub_zero]
    ring
  cases m <;> simp_all [contrib] <;> ring

/-- C4.  One step of the segmentation walk with a current segment open and
a window whose start lies more than 7 days past the segment's end: the
window never extends the segment — regardless of the diff value, the
current segment is closed and a fresh segment is opened at the window. -/
theorem claim_C4_forced_break (dynamic_threshold : ℚ) (closed : List RawSeg)
    (current_seg : RawSeg) (w : Window)
    (hprof : w.profile ≠ emptyProfile)
    (hgap : (w.start - current_seg.stop) / 86400 > 7) :
    segStep dynamic_threshold (closed, some current_seg) w =
      (closed ++ [current_seg], some ⟨w.start, w.stop, mediansOf w.profile, 1⟩) := by
  simp only [segStep, if_neg hprof]
  rw [if_neg]
  intro hc
  exact hc.2 hgap

/-- Witness for C4: a window 9 days after the current segment's end, with
an sbp median identical to the segment's running average (diff 0, far
below any threshold), still closes the segment. -/
theorem claim_C4_forced_break_witness :
    c4win.profile ≠ emptyProfile ∧ (c4win.start - c4seg.stop) / 86400 > 7 ∧
      segStep 15 ([], some c4seg) c4win =
        ([c4seg], some ⟨c4win.start, c4win.stop, mediansOf c4win.profile, 1⟩) :=
  ⟨by simp [c4win, emptyProfile], by simp only [c4win, c4seg]; norm_num,
    claim_C4_forced_break 15 [] c4seg c4win (by simp [c4win, emptyProfile])
      (by simp only [c4win, c4seg]; norm_num)⟩

/-- Witness for C10: an hr median of 70 entering a segment whose sums have
no hr key contributes `0.8 * 70` to the diff. -/
theorem claim_C10_witness :
    c10medians Metric.hr = some 70 ∧ c10seg.profile_sum Metric.hr = none ∧
      diffOf c10medians c10seg =
        diffOf (fun m2 => if m2 = Metric.hr then none else c10medians m2)
            c10seg +
          METRIC_WEIGHTS Metric.hr * |(70 : ℚ)| :=
  ⟨rfl, rfl,
    claim_C10_missing_metric_contribution c10medians c10seg Metric.hr 70
      rfl rfl⟩

end SteadyState

namespace SteadyState

/-- C1 counterexample.  On the three-record input `c1ex`, the analysis
produces no segments at all (its segmentation stage consumes the size-5
"5pt" windows, of which there are none), while consuming the size-3
windows — the smallest configured scale — would have produced a segment
(shown here with the source's default threshold 15). -/
theorem claim_C1_counterexample :
    (analyze_steady_states c1ex).map AnalysisResult.segments = some [] ∧
      (segment_states c1ex (slide_windows c1ex 3) 15).1 ≠ [] := by
  constructor
  · simp [analyze_steady_states, analyzeSorted, c1ex, exRec, sort_records,
      List.insertionSort, List.orderedInsert, dtLe, slide_windows,
      segment_states, lookup_5pt]
  · rw [slide_windows_c1ex_3, mkWindow_c1ex]
    unfold segment_states rawSegments segStep
    simp [emptyProfile]
    unfold finalizeSeg recordsWithin
    simp [c1ex, exRec]
    try norm_num

/-- C1 amended.  The segmentation stage consumes the "5pt" (size-5)
windows, not the smallest configured size 3: whenever the record list has
fewer than 5 records, segments and transitions are empty, even though
size-3 windows exist for 3 or 4 records. -/
theorem claim_C1_amended_atomic_scale (records : List Record)
    (h0 : records ≠ []) (h5 : records.length < 5) :
    ∃ res, analyze_steady_states records = some res ∧
      res.segments = [] ∧ res.transitions = [] := by
  refine ⟨analyzeSorted (sort_records records), ?_, ?_, ?_⟩
  · simp [analyze_steady_states, h0]
  · simp [analyzeSorted, lookup_5pt, slide_windows, length_sort_records, h5,
      segment_states]
  · simp [analyzeSorted, lookup_5pt, slide_windows, length_sort_records, h5,
      segment_states]

/-- Witness for the amended C1 at the concrete three-record input. -/
theorem claim_C1_amended_witness :
    c1ex ≠ [] ∧ c1ex.length < 5 ∧
      ∃ res, analyze_steady_states c1ex = some res ∧
        res.segments = [] ∧ res.transitions = [] :=
  ⟨by simp [c1ex], by simp [c1ex],
    claim_C1_amended_atomic_scale c1ex (by simp [c1ex]) (by simp [c1ex])⟩

lemma events_by_segment_length (records : List Record)
    (segments : List Segment) :
    (events_by_segment records segments).length =
      if records ≠ [] ∧ segments = [] ∧ latestEvents records ≠ [] then 1
      else segments.length := by
  unfold events_by_segment latestEvents
  cases hL : records.getLast? with
  | none =>
    have h0 : records = [] := by
      cases records with
      | nil => rfl
      | cons a l => simp [List.getLast?_concat] at hL
    simp [h0]
  | some latest =>
    have hne : records ≠ [] := by
      rintro rfl
      simp at hL
    by_cases hev : latest.events = []
    · simp [hev, hL, hne]
    · by_cases hseg : segments = []
      · simp [hev, hL, hne, hseg]
      · have hres : segments.map (segEvents records) ≠ [] := by simp [hseg]
        simp only [hL]
        rw [if_neg hev, if_neg hres, if_neg (by simp [hseg])]
        rw [List.length_append, List.length_dropLast, List.length_map,
          List.length_singleton]
        have hlen : segments.length ≠ 0 := by
          simpa [List.length_eq_zero] using hseg
        omega

end SteadyState

namespace SteadyState

/-- C7 counterexample.  On a one-record input carrying a symptom tag, the
analysis yields zero segments but one entry in `events_by_segment` (the
acute-response patch), so the list is not positionally aligned with the
empty segment list. -/
theorem claim_C7_counterexample :
    (analyze_steady_states c7ex).map
        (fun res => (res.segments.length, res.events_by_segment.length)) =
      some (0, 1) := by
  simp [analyze_steady_states, analyzeSorted, c7ex, sort_records,
    List.insertionSort, List.orderedInsert, slide_windows, lookup_5pt,
    lookup_5pt_expanded, segment_states, events_by_segment, latestEvents,
    select_baseline, scaleStep, WINDOW_SIZES]

/-- C7 amended.  `events_by_segment` has exactly one entry per segment —
except in the acute-response patch case: when the segments list is empty
and the latest (sorted) record has a non-empty events list, the result has
exactly one entry, not zero. -/
theorem claim_C7_amended_alignment (records : List Record)
    (res : AnalysisResult) (h : analyze_steady_states records = some res) :
    res.events_by_segment.length =
      if res.segments = [] ∧ latestEvents (sort_records records) ≠ [] then 1
      else res.segments.length := by
  by_cases h0 : records = []
  · simp [analyze_steady_states, h0] at h
  · simp only [analyze_steady_states, h0, if_neg, ite_false, if_false,
      Option.some.injEq] at h
    subst h
    have hsne : sort_records records ≠ [] := by
      simpa [sort_records_eq_nil_iff] using h0
    simp only [analyzeSorted]
    rw [events_by_segment_length]
    simp [hsne]

/-- Witness for the amended C7 at the one-record input. -/
theorem claim_C7_amended_witness :
    (analyze_steady_states c7ex = some (analyzeSorted (sort_records c7ex))) ∧
      (analyzeSorted (sort_records c7ex)).events_by_segment.length =
        (if (analyzeSorted (sort_records c7ex)).segments = [] ∧
            latestEvents (sort_records c7ex) ≠ [] then 1
         else (analyzeSorted (sort_records c7ex)).segments.length) :=
  ⟨by simp [analyze_steady_states, c7ex],
    claim_C7_amended_alignment c7ex _ (by simp [analyze_steady_states, c7ex])⟩

/-! ### Stability bounds machinery (C2/C5) -/

lemma metric_weights_pos (m : Metric) : 0 < METRIC_WEIGHTS m := by
  cases m <;> norm_num [METRIC_WEIGHTS]

lemma profileEntry_iqr_nonneg {values : List ℚ} {st : Stats}
    (h : profileEntry values = some st) : 0 ≤ st.iqr := by
  simp only [profileEntry] at h
  split at h
  · exact absurd h (by simp)
  · have h2 := Option.some_inj.mp h
    rw [← h2]
    exact le_max_right _ _

lemma compute_profile_get (records : List Record) (m : Metric) :
    (compute_profile records).get m =
      if records.length = 0 then none
      else profileEntry (safe_get_metric_values records m) := by
  unfold compute_profile
  split
  · cases m <;> rfl
  · cases m <;> rfl

lemma compute_profile_iqr_nonneg {records : List Record} {m : Metric}
    {st : Stats} (h : (compute_profile records).get m = some st) :
    0 ≤ st.iqr := by
  rw [compute_profile_get] at h
  split at h
  · exact absurd h (by simp)
  · exact profileEntry_iqr_nonneg h

lemma foldl_weight_ge (p : Profile) (ms : List Metric) (acc : ℚ) :
    acc ≤ ms.foldl
      (fun a m => match p.get m with
        | some _ => a + METRIC_WEIGHTS m
        | none => a) acc := by
  induction ms generalizing acc with
  | nil => exact le_refl acc
  | cons m tl ih =>
    simp only [List.foldl_cons]
    cases hm : p.get m with
    | none =>
      simp only [hm]
      exact ih acc
    | some st =>
      simp only [hm]
      calc acc ≤ acc + METRIC_WEIGHTS m := by
            linarith [metric_weights_pos m]
        _ ≤ _ := ih _

lemma foldl_weight_pos (p : Profile) (ms : List Metric) (acc : ℚ)
    (hacc : 0 ≤ acc) (hex : ∃ m ∈ ms, (p.get m).isSome) :
    0 < ms.foldl
      (fun a m => match p.get m with
        | some _ => a + METRIC_WEIGHTS m
        | none => a) acc := by
  induction ms generalizing acc with
  | nil => simp at hex
  | cons m tl ih =>
    obtain ⟨m0, hm0mem, hm0⟩ := hex
    simp only [List.foldl_cons]
    cases hm : p.get m with
    | none =>
      simp only [hm]
      have hm0tl : m0 ∈ tl := by
        rcases List.mem_cons.mp hm0mem with rfl | htl
        · rw [hm] at hm0
          exact absurd hm0 (by simp)
        · exact htl
      exact ih acc hacc ⟨m0, hm0tl, hm0⟩
    | some st =>
      simp only [hm]
      have h1 : 0 < acc + METRIC_WEIGHTS m := by
        linarith [metric_weights_pos m]
      exact lt_of_lt_of_le h1 (foldl_weight_ge p tl _)

lemma foldl_iqr_nonneg (p : Profile)
    (hiqr : ∀ m st, p.get m = some st → 0 ≤ st.iqr)
    (ms : List Metric) (acc : ℚ) (hacc : 0 ≤ acc) :
    0 ≤ ms.foldl
      (fun a m => match p.get m with
        | some st => a + st.iqr * METRIC_WEIGHTS m
        | none => a) acc := by
  induction ms generalizing acc with
  | nil => exact hacc
  | cons m tl ih =>
    simp only [List.foldl_cons]
    cases hm : p.get m with
    | none =>
      simp only [hm]
      exact ih acc hacc
    | some st =>
      simp only [hm]
      refine ih _ ?_
      have h1 : 0 ≤ st.iqr := hiqr m st hm
      have h2 := metric_weights_pos m
      exact add_nonneg hacc (mul_nonneg h1 h2.le)

lemma exists_isSome_of_ne_empty (p : Profile) (h : p ≠ emptyProfile) :
    ∃ m ∈ METRICS, (p.get m).isSome := by
  by_contra hc
  push_neg at hc
  apply h
  obtain ⟨s, d, p2, h2⟩ := p
  have g1 : s = none := by
    simpa [Profile.get, Option.not_isSome_iff_eq_none] using
      hc Metric.sbp (by simp [METRICS])
  have g2 : d = none := by
    simpa [Profile.get, Option.not_isSome_iff_eq_none] using
      hc Metric.dbp (by simp [METRICS])
  have g3 : p2 = none := by
    simpa [Profile.get, Option.not_isSome_iff_eq_none] using
      hc Metric.pp (by simp [METRICS])
  have g4 : h2 = none := by
    simpa [Profile.get, Option.not_isSome_iff_eq_none] using
      hc Metric.hr (by simp [METRICS])
  subst g1 g2 g3 g4
  rfl

lemma one_div_one_add_bounds {ti tw : ℚ} (htw : 0 < tw) (hti : 0 ≤ ti) :
    0 < 1 / (1 + ti / tw) ∧ 1 / (1 + ti / tw) ≤ 1 := by
  have hx : 0 ≤ ti / tw := div_nonneg hti htw.le
  have hd : 0 < 1 + ti / tw := by linarith
  constructor
  · exact div_pos one_pos hd
  · rw [div_le_one hd]
    linarith

lemma compute_stability_pos (p : Profile) (hne : p ≠ emptyProfile)
    (hiqr : ∀ m st, p.get m = some st → 0 ≤ st.iqr) :
    0 < compute_stability p ∧ compute_stability p ≤ 1 := by
  have htw := foldl_weight_pos p METRICS 0 (le_refl 0)
    (exists_isSome_of_ne_empty p hne)
  have hti := foldl_iqr_nonneg p hiqr METRICS 0 (le_refl 0)
  simp only [compute_stability, if_neg hne]
  rw [if_neg htw.ne']
  exact one_div_one_add_bounds htw hti

lemma compute_stability_empty : compute_stability emptyProfile = 0 := by
  simp [compute_stability]

lemma penalized_bounds {s0 mg : ℚ} (h0 : 0 < s0) (h1 : s0 ≤ 1) :
    0 < (if mg > 7 then s0 / (1 + (mg - 7)) else s0) ∧
      (if mg > 7 then s0 / (1 + (mg - 7)) else s0) ≤ 1 := by
  split
  · next h =>
    constructor
    · exact div_pos h0 (by linarith)
    · calc s0 / (1 + (mg - 7)) ≤ s0 := by
            apply div_le_self h0.le
            linarith
        _ ≤ 1 := h1
  · exact ⟨h0, h1⟩

lemma of_mem_slide_windows {records : List Record} {window_size : ℕ}
    {w : Window} (h : w ∈ slide_windows records window_size) :
    ∃ start, start + window_size ≤ (sort_records records).length ∧
      w = mkWindow (sort_records records) window_size start := by
  simp only [slide_windows] at h
  split at h
  · simp at h
  · next hlt =>
    obtain ⟨start, hs, rfl⟩ := List.mem_map.mp h
    have hrange := List.mem_range.mp hs
    exact ⟨start, by omega, rfl⟩

lemma mkWindow_profile (s : List Record) (ws st : ℕ) :
    (mkWindow s ws st).profile = compute_profile ((s.drop st).take ws) := rfl

lemma mkWindow_max_gap (s : List Record) (ws st : ℕ) :
    (mkWindow s ws st).max_gap_days =
      get_max_gap_days ((s.drop st).take ws) := rfl

lemma mkWindow_stability (s : List Record) (ws st : ℕ) :
    (mkWindow s ws st).stability =
      if get_max_gap_days ((s.drop st).take ws) > 7 then
        compute_stability (compute_profile ((s.drop st).take ws)) /
          (1 + (get_max_gap_days ((s.drop st).take ws) - 7))
      else compute_stability (compute_profile ((s.drop st).take ws)) := rfl

lemma window_records_ne_nil {records : List Record} {ws start : ℕ}
    (hws : 1 ≤ ws) (hb : start + ws ≤ (sort_records records).length) :
    ((sort_records records).drop start).take ws ≠ [] := by
  have hlen : (((sort_records records).drop start).take ws).length = ws := by
    rw [List.length_take, List.length_drop]
    omega
  intro hnil
  rw [hnil] at hlen
  simp at hlen
  omega

lemma window_records_subset {records : List Record} {ws start : ℕ}
    {r : Record} (hr : r ∈ ((sort_records records).drop start).take ws) :
    r ∈ records :=
  mem_sort_records.mp (List.mem_of_mem_drop (List.mem_of_mem_take hr))

lemma compute_profile_ne_empty {recs : List Record} (hne : recs ≠ [])
    (hex : ∃ r ∈ recs, ∃ m, (r.get m).isSome) :
    compute_profile recs ≠ emptyProfile := by
  obtain ⟨r, hr, m, hm⟩ := hex
  intro heq
  have hget : (compute_profile recs).get m = none := by
    rw [heq]
    cases m <;> rfl
  rw [compute_profile_get,
    if_neg (by simpa [List.length_eq_zero] using hne)] at hget
  have hvals : safe_get_metric_values recs m ≠ [] := by
    obtain ⟨v, hv⟩ := Option.isSome_iff_exists.mp hm
    exact List.ne_nil_of_mem (List.mem_filterMap.mpr ⟨r, hr, hv⟩)
  simp only [profileEntry] at hget
  split at hget
  · next hnil =>
    have hperm := List.perm_insertionSort (· ≤ · : ℚ → ℚ → Prop)
      (safe_get_metric_values recs m)
    rw [hnil] at hperm
    exact hvals hperm.symm.eq_nil
  · exact absurd hget (by simp)

/-- The bounds of a slicer window's (penalized) stability, given that its
profile is non-empty. -/
lemma window_stability_bounds {records : List Record} {window_size : ℕ}
    {w : Window} (hws : 1 ≤ window_size)
    (hrec : ∀ r ∈ records, ∃ m, (r.get m).isSome)
    (hw : w ∈ slide_windows records window_size) :
    0 < compute_stability w.profile ∧ compute_stability w.profile ≤ 1 ∧
      0 < w.stability ∧ w.stability ≤ 1 := by
  obtain ⟨start, hb, rfl⟩ := of_mem_slide_windows hw
  have hne := window_records_ne_nil hws hb
  have hexr : ∃ r ∈ ((sort_records records).drop start).take window_size,
      ∃ m, (r.get m).isSome := by
    obtain ⟨r, hr⟩ := List.exists_mem_of_ne_nil _ hne
    exact ⟨r, hr, hrec r (window_records_subset hr)⟩
  have hpne := compute_profile_ne_empty hne hexr
  have hbounds := compute_stability_pos _ hpne
    (fun m st h => compute_profile_iqr_nonneg h)
  rw [mkWindow_stability, mkWindow_profile]
  exact ⟨hbounds.1, hbounds.2, penalized_bounds hbounds.1 hbounds.2⟩

end SteadyState

namespace SteadyState

/-- C2.  For every record list whose records each expose at least one
metric value (the input contract: records carry numeric sbp/dbp/pp/hr) and
every positive window size, each window produced by the slicer has
stability in (0, 1] — also after the gap penalty — and the stability of a
profile with no metrics present is 0. -/
theorem claim_C2_stability_range (records : List Record) (window_size : ℕ)
    (hws : 1 ≤ window_size)
    (hrec : ∀ r ∈ records, ∃ m, (r.get m).isSome) :
    (∀ w ∈ slide_windows records window_size,
        0 < w.stability ∧ w.stability ≤ 1) ∧
      compute_stability emptyProfile = 0 := by
  refine ⟨fun w hw => ?_, compute_stability_empty⟩
  have h := window_stability_bounds hws hrec hw
  exact ⟨h.2.2.1, h.2.2.2⟩

/-- Witness for C2 at the three-record input `c1ex`, window size 3. -/
theorem claim_C2_witness :
    1 ≤ 3 ∧ (∀ r ∈ c1ex, ∃ m, (r.get m).isSome) ∧
      ((∀ w ∈ slide_windows c1ex 3, 0 < w.stability ∧ w.stability ≤ 1) ∧
        compute_stability emptyProfile = 0) :=
  ⟨by norm_num,
    by
      intro r hr
      simp only [c1ex] at hr
      fin_cases hr <;> exact ⟨Metric.sbp, rfl⟩,
    claim_C2_stability_range c1ex 3 (by norm_num)
      (by
        intro r hr
        simp only [c1ex] at hr
        fin_cases hr <;> exact ⟨Metric.sbp, rfl⟩)⟩

/-- C5.  For every window of the slicer (on records exposing metric
values): no penalty at `max_gap_days ≤ 7` (stability equals the profile
stability); for `max_gap_days > 7` the stability equals the profile
stability divided by `1 + (max_gap - 7)`, strictly below the unpenalized
value, and strictly decreasing in the gap with the profile held fixed. -/
theorem claim_C5_gap_penalty (records : List Record) (window_size : ℕ)
    (hws : 1 ≤ window_size)
    (hrec : ∀ r ∈ records, ∃ m, (r.get m).isSome) :
    ∀ w ∈ slide_windows records window_size,
      (w.max_gap_days ≤ 7 → w.stability = compute_stability w.profile) ∧
        (7 < w.max_gap_days →
          w.stability =
              compute_stability w.profile / (1 + (w.max_gap_days - 7)) ∧
            w.stability < compute_stability w.profile) ∧
        ∀ d, 7 < w.max_gap_days → w.max_gap_days < d →
          compute_stability w.profile / (1 + (d - 7)) < w.stability := by
  intro w hw
  have hpos := (window_stability_bounds hws hrec hw).1
  obtain ⟨start, hb, rfl⟩ := of_mem_slide_windows hw
  rw [mkWindow_stability, mkWindow_profile, mkWindow_max_gap] at *
  refine ⟨fun h7 => by rw [if_neg (not_lt.mpr h7)], fun h7 => ?_, ?_⟩
  · rw [if_pos h7]
    refine ⟨rfl, ?_⟩
    apply div_lt_self hpos
    linarith
  · intro d h7 hd
    rw [if_pos h7]
    apply div_lt_div_of_pos_left hpos
    · linarith
    · linarith

/-- Witness for C5 at `c5ex` (its only size-3 window has a 10-day gap). -/
theorem claim_C5_witness :
    1 ≤ 3 ∧ (∀ r ∈ c5ex, ∃ m, (r.get m).isSome) ∧
      (∀ w ∈ slide_windows c5ex 3,
        (w.max_gap_days ≤ 7 → w.stability = compute_stability w.profile) ∧
          (7 < w.max_gap_days →
            w.stability =
                compute_stability w.profile / (1 + (w.max_gap_days - 7)) ∧
              w.stability < compute_stability w.profile) ∧
          ∀ d, 7 < w.max_gap_days → w.max_gap_days < d →
            compute_stability w.profile / (1 + (d - 7)) < w.stability) :=
  ⟨by norm_num,
    by
      intro r hr
      simp only [c5ex] at hr
      fin_cases hr <;> exact ⟨Metric.sbp, rfl⟩,
    claim_C5_gap_penalty c5ex 3 (by norm_num)
      (by
        intro r hr
        simp only [c5ex] at hr
        fin_cases hr <;> exact ⟨Metric.sbp, rfl⟩)⟩

/-! ### Recent-window selection machinery (C3) -/

lemma findQualified_eq_some {floor_stability : ℚ} :
    ∀ {l : List Window} {w : Window},
      findQualified floor_stability l = some w →
        w ∈ l ∧ floor_stability ≤ w.stability := by
  intro l
  induction l with
  | nil => intro w h; simp [findQualified] at h
  | cons a tl ih =>
    intro w h
    simp only [findQualified] at h
    split at h
    · next hq =>
      cases h
      exact ⟨List.mem_cons_self a tl, hq⟩
    · next hq =>
      obtain ⟨hm, hs⟩ := ih h
      exact ⟨List.mem_cons_of_mem a hm, hs⟩

lemma findQualified_eq_none {floor_stability : ℚ} :
    ∀ {l : List Window}, findQualified floor_stability l = none →
      ∀ v ∈ l, v.stability < floor_stability := by
  intro l
  induction l with
  | nil => intro _ v hv; simp at hv
  | cons a tl ih =>
    intro h v hv
    simp only [findQualified] at h
    split at h
    · exact absurd h (by simp)
    · next hq =>
      rcases List.mem_cons.mp hv with rfl | htl
      · exact lt_of_not_le hq
      · exact ih h v htl

lemma findQualified_min {t floor_stability : ℚ} :
    ∀ {l : List Window}, l.Sorted (distLe t) → ∀ {w : Window},
      findQualified floor_stability l = some w →
        ∀ v ∈ l, floor_stability ≤ v.stability →
          |t - w.stop| ≤ |t - v.stop| := by
  intro l
  induction l with
  | nil => intro _ w h; simp [findQualified] at h
  | cons a tl ih =>
    intro hs w h v hv hvq
    simp only [findQualified] at h
    split at h
    · cases h
      rcases List.mem_cons.mp hv with rfl | htl
      · exact le_refl _
      · exact List.rel_of_sorted_cons hs v htl
    · next hq =>
      rcases List.mem_cons.mp hv with rfl | htl
      · exact absurd hvq hq
      · exact ih hs.of_cons h v htl hvq

lemma sorted_head_min {t : ℚ} {a : Window} {l : List Window}
    (hs : (a :: l).Sorted (distLe t)) :
    ∀ v ∈ a :: l, |t - a.stop| ≤ |t - v.stop| := by
  intro v hv
  rcases List.mem_cons.mp hv with rfl | htl
  · exact le_refl _
  · exact List.rel_of_sorted_cons hs v htl

end SteadyState

namespace SteadyState

/-- C3.  For a non-empty window list, `_select_recent` always returns a
window of the list; if some window reaches the 0.5 × baseline-stability
floor, the returned window reaches the floor and is at minimal absolute
time distance from the final window's end among all windows reaching it;
otherwise it is a window at minimal distance outright. -/
theorem claim_C3_recent_selection (windows : List Window) (baseline : Window)
    (hne : windows ≠ []) :
    ∃ w, select_recent windows baseline = some w ∧ w ∈ windows ∧
      ∀ lastw, windows.getLast? = some lastw →
        ((1/2 * baseline.stability ≤ w.stability ∧
            ∀ v ∈ windows, 1/2 * baseline.stability ≤ v.stability →
              |lastw.stop - w.stop| ≤ |lastw.stop - v.stop|) ∨
          ((∀ v ∈ windows, v.stability < 1/2 * baseline.stability) ∧
            ∀ v ∈ windows, |lastw.stop - w.stop| ≤ |lastw.stop - v.stop|)) := by
  obtain ⟨lastw, hlast⟩ : ∃ lw, windows.getLast? = some lw := by
    cases hL : windows.getLast? with
    | none => exact absurd (List.getLast?_eq_none_iff.mp hL) hne
    | some lw => exact ⟨lw, rfl⟩
  simp only [select_recent, hlast]
  have hsorted : (windows.insertionSort (distLe lastw.stop)).Sorted
      (distLe lastw.stop) := List.sorted_insertionSort _ _
  have hperm := List.perm_insertionSort (distLe lastw.stop) windows
  cases hF : findQualified (1/2 * baseline.stability)
      (windows.insertionSort (distLe lastw.stop)) with
  | some w =>
    obtain ⟨hwmem, hq⟩ := findQualified_eq_some hF
    refine ⟨w, rfl, hperm.mem_iff.mp hwmem, ?_⟩
    intro lw2 hlw2
    cases hlw2
    left
    exact ⟨hq, fun v hv hvq =>
      findQualified_min hsorted hF v (hperm.mem_iff.mpr hv) hvq⟩
  | none =>
    have hcne : windows.insertionSort (distLe lastw.stop) ≠ [] := by
      intro h0
      rw [h0] at hperm
      exact hne hperm.symm.eq_nil
    obtain ⟨a, tl, hatl⟩ := List.exists_cons_of_ne_nil hcne
    have hamem : a ∈ windows := by
      rw [← hperm.mem_iff, hatl]
      exact List.mem_cons_self a tl
    refine ⟨a, by rw [hatl]; rfl, hamem, ?_⟩
    intro lw2 hlw2
    cases hlw2
    right
    constructor
    · exact fun v hv =>
        findQualified_eq_none hF v (hperm.mem_iff.mpr hv)
    · intro v hv
      have := sorted_head_min (hatl ▸ hsorted) v (by
        rw [← hatl]
        exact hperm.mem_iff.mpr hv)
      exact this

/-- Witness for C3 at the singleton list containing `c4win`. -/
theorem claim_C3_witness :
    [c4win] ≠ [] ∧
      ∃ w, select_recent [c4win] c4win = some w ∧ w ∈ [c4win] ∧
        ∀ lastw, [c4win].getLast? = some lastw →
          ((1/2 * c4win.stability ≤ w.stability ∧
              ∀ v ∈ [c4win], 1/2 * c4win.stability ≤ v.stability →
                |lastw.stop - w.stop| ≤ |lastw.stop - v.stop|) ∨
            ((∀ v ∈ [c4win], v.stability < 1/2 * c4win.stability) ∧
              ∀ v ∈ [c4win], |lastw.stop - w.stop| ≤ |lastw.stop - v.stop|)) :=
  ⟨by simp, claim_C3_recent_selection [c4win] c4win (by simp)⟩

/-! ### Percentile index machinery (C8) -/

lemma percentileIdx_cast {n : ℕ} (hn : 1 ≤ n) (p : ℚ) :
    percentileIdx p n = (⌊p * ((n - 1 : ℕ) : ℚ) + 1/2⌋).toNat := by
  unfold percentileIdx
  rw [Nat.cast_sub hn, Nat.cast_one]

lemma percentileIdx_q1_le {n : ℕ} (hn : 1 ≤ n) :
    percentileIdx (1/4) n ≤ (n - 1) / 2 := by
  rw [percentileIdx_cast hn, Int.toNat_le, ← Int.lt_add_one_iff, Int.floor_lt]
  have hk2 : (n - 1 : ℕ) ≤ 2 * ((n - 1) / 2) + 1 := by omega
  have hq : ((n - 1 : ℕ) : ℚ) ≤ 2 * (((n - 1) / 2 : ℕ) : ℚ) + 1 := by
    exact_mod_cast hk2
  have hq0 : (0 : ℚ) ≤ (((n - 1) / 2 : ℕ) : ℚ) := Nat.cast_nonneg _
  rw [Int.cast_add, Int.cast_one, Int.cast_natCast]
  linarith

lemma percentileIdx_q3_ge {n : ℕ} (hn : 1 ≤ n) :
    n / 2 ≤ percentileIdx (3/4) n := by
  rw [percentileIdx_cast hn,
    Int.le_toNat (Int.floor_nonneg.mpr (by positivity)), Int.le_floor]
  have h1 : 2 * (n / 2) ≤ n := by omega
  have hq1 : 2 * ((n / 2 : ℕ) : ℚ) ≤ (n : ℚ) := by exact_mod_cast h1
  have hq2 : (1 : ℚ) ≤ (n : ℚ) := by exact_mod_cast hn
  rw [Int.cast_natCast, Nat.cast_sub hn, Nat.cast_one]
  linarith

lemma percentileIdx_q3_lt {n : ℕ} (hn : 1 ≤ n) :
    percentileIdx (3/4) n < n := by
  have h : percentileIdx (3/4) n ≤ n - 1 := by
    rw [percentileIdx_cast hn, Int.toNat_le, ← Int.lt_add_one_iff,
      Int.floor_lt]
    have hq0 : (0 : ℚ) ≤ ((n - 1 : ℕ) : ℚ) := Nat.cast_nonneg _
    push_cast
    linarith
  omega

lemma sorted_getD_mono {l : List ℚ} (h : l.Sorted (· ≤ ·)) {i j : ℕ}
    (hij : i ≤ j) (hj : j < l.length) : l.getD i 0 ≤ l.getD j 0 := by
  haveI : IsRefl ℚ (· ≤ ·) := ⟨le_refl⟩
  have hi : i < l.length := lt_of_le_of_lt hij hj
  rw [List.getD_eq_get _ _ hi, List.getD_eq_get _ _ hj]
  exact h.rel_get_of_le (show (⟨i, hi⟩ : Fin l.length) ≤ ⟨j, hj⟩ from hij)

lemma pymedian_sorted {vs : List ℚ} (hs : vs.Sorted (· ≤ ·)) :
    pymedian vs =
      if vs.length % 2 = 1 then vs.getD (vs.length / 2) 0
      else (vs.getD (vs.length / 2 - 1) 0 + vs.getD (vs.length / 2) 0) / 2 := by
  unfold pymedian
  rw [hs.insertionSort_eq]

end SteadyState

namespace SteadyState

/-- C8.  For every record subset and metric with at least one present
value, the profile entry exists, its q1/q3 are the nearest-rank
percentiles (index `round(p * (n-1))`) of the sorted present values, and
it satisfies `iqr ≥ 0` and `q1 ≤ median ≤ q3`. -/
theorem claim_C8_profile_invariants (records : List Record) (m : Metric)
    (hvals : safe_get_metric_values records m ≠ []) :
    ∃ st, (compute_profile records).get m = some st ∧
      0 ≤ st.iqr ∧ st.q1 ≤ st.median ∧ st.median ≤ st.q3 ∧
      st.q1 =
        ((safe_get_metric_values records m).insertionSort (· ≤ ·)).getD
          (percentileIdx (1/4)
            ((safe_get_metric_values records m).insertionSort (· ≤ ·)).length)
          0 ∧
      st.q3 =
        ((safe_get_metric_values records m).insertionSort (· ≤ ·)).getD
          (percentileIdx (3/4)
            ((safe_get_metric_values records m).insertionSort (· ≤ ·)).length)
          0 := by
  have hrecne : ¬records.length = 0 := by
    intro h0
    rw [List.length_eq_zero] at h0
    subst h0
    exact hvals rfl
  rw [compute_profile_get, if_neg hrecne]
  have hperm := List.perm_insertionSort (· ≤ · : ℚ → ℚ → Prop)
    (safe_get_metric_values records m)
  simp only [profileEntry]
  set vs := (safe_get_metric_values records m).insertionSort (· ≤ ·)
    with hvsdef
  have hvsne : vs ≠ [] := by
    intro h0
    have hl := hperm.length_eq
    rw [h0] at hl
    simp only [List.length_nil] at hl
    exact hvals (List.length_eq_zero.mp hl.symm)
  have hsorted : vs.Sorted (· ≤ ·) := List.sorted_insertionSort _ _
  have hlen : 1 ≤ vs.length := List.length_pos.mpr hvsne
  rw [if_neg hvsne]
  have hq1le := percentileIdx_q1_le hlen
  have hi3lt := percentileIdx_q3_lt hlen
  have hi3ge := percentileIdx_q3_ge hlen
  refine ⟨_, rfl, le_max_right _ _, ?_, ?_, ?_, ?_⟩
  · show percentile vs (1/4) ≤ pymedian vs
    rw [pymedian_sorted hsorted]
    unfold percentile
    rw [if_neg hvsne]
    by_cases hpar : vs.length % 2 = 1
    · rw [if_pos hpar]
      exact sorted_getD_mono hsorted (by omega) (by omega)
    · rw [if_neg hpar]
      have hq1a : vs.getD (percentileIdx (1/4) vs.length) 0 ≤
          vs.getD (vs.length / 2 - 1) 0 :=
        sorted_getD_mono hsorted (by omega) (by omega)
      have hab : vs.getD (vs.length / 2 - 1) 0 ≤ vs.getD (vs.length / 2) 0 :=
        sorted_getD_mono hsorted (by omega) (by omega)
      linarith
  · show pymedian vs ≤ percentile vs (3/4)
    rw [pymedian_sorted hsorted]
    unfold percentile
    rw [if_neg hvsne]
    by_cases hpar : vs.length % 2 = 1
    · rw [if_pos hpar]
      exact sorted_getD_mono hsorted (by omega) (by omega)
    · rw [if_neg hpar]
      have hab : vs.getD (vs.length / 2 - 1) 0 ≤ vs.getD (vs.length / 2) 0 :=
        sorted_getD_mono hsorted (by omega) (by omega)
      have hbq3 : vs.getD (vs.length / 2) 0 ≤
          vs.getD (percentileIdx (3/4) vs.length) 0 :=
        sorted_getD_mono hsorted (by omega) (by omega)
      linarith
  · show percentile vs (1/4) = vs.getD (percentileIdx (1/4) vs.length) 0
    unfold percentile
    rw [if_neg hvsne]
  · show percentile vs (3/4) = vs.getD (percentileIdx (3/4) vs.length) 0
    unfold percentile
    rw [if_neg hvsne]

/-- Witness for C8 at `c1ex` and sbp. -/
theorem claim_C8_witness :
    safe_get_metric_values c1ex Metric.sbp ≠ [] ∧
      ∃ st, (compute_profile c1ex).get Metric.sbp = some st ∧
        0 ≤ st.iqr ∧ st.q1 ≤ st.median ∧ st.median ≤ st.q3 ∧
        st.q1 =
          ((safe_get_metric_values c1ex Metric.sbp).insertionSort
            (· ≤ ·)).getD
            (percentileIdx (1/4)
              ((safe_get_metric_values c1ex Metric.sbp).insertionSort
                (· ≤ ·)).length) 0 ∧
        st.q3 =
          ((safe_get_metric_values c1ex Metric.sbp).insertionSort
            (· ≤ ·)).getD
            (percentileIdx (3/4)
              ((safe_get_metric_values c1ex Metric.sbp).insertionSort
                (· ≤ ·)).length) 0 :=
  ⟨by simp [c1ex, exRec, safe_get_metric_values, Record.get],
    claim_C8_profile_invariants c1ex Metric.sbp
      (by simp [c1ex, exRec, safe_get_metric_values, Record.get])⟩

/-! ### Determinism machinery (C6) -/

instance : IsAntisymm Record (fun a b => a.datetime < b.datetime) :=
  ⟨fun _ _ h1 h2 => absurd (h1.trans h2) (lt_irrefl _)⟩

lemma sort_records_eq_of_perm {l1 l2 : List Record} (hp : l1.Perm l2)
    (hd : l1.Pairwise (fun a b => a.datetime ≠ b.datetime)) :
    sort_records l1 = sort_records l2 := by
  have hs1 : (sort_records l1).Sorted dtLe := List.sorted_insertionSort dtLe l1
  have hs2 : (sort_records l2).Sorted dtLe := List.sorted_insertionSort dtLe l2
  have hp1 : (sort_records l1).Perm l1 := List.perm_insertionSort dtLe l1
  have hp2 : (sort_records l2).Perm l2 := List.perm_insertionSort dtLe l2
  have hsymm : Symmetric (fun a b : Record => a.datetime ≠ b.datetime) :=
    fun _ _ h => h.symm
  have hd1 : (sort_records l1).Pairwise
      (fun a b => a.datetime ≠ b.datetime) :=
    (hp1.pairwise_iff fun h => h.symm).mpr hd
  have hd2 : (sort_records l2).Pairwise
      (fun a b => a.datetime ≠ b.datetime) :=
    (hp2.pairwise_iff fun h => h.symm).mpr
      ((hp.pairwise_iff fun h => h.symm).mp hd)
  have hlt1 : (sort_records l1).Pairwise
      (fun a b => a.datetime < b.datetime) :=
    (hs1.and hd1).imp fun h => lt_of_le_of_ne h.1 h.2
  have hlt2 : (sort_records l2).Pairwise
      (fun a b => a.datetime < b.datetime) :=
    (hs2.and hd2).imp fun h => lt_of_le_of_ne h.1 h.2
  exact List.eq_of_perm_of_sorted (hp1.trans (hp.trans hp2.symm)) hlt1 hlt2

end SteadyState

namespace SteadyState

/-- C6 amended.  The analysis is permutation-invariant whenever the
records carry pairwise distinct timestamps (the stable internal sort then
produces the same sorted list for every permutation).  With duplicated
timestamps the claim fails: see the counterexample. -/
theorem claim_C6_amended_determinism (l1 l2 : List Record) (hp : l1.Perm l2)
    (hd : l1.Pairwise (fun a b => a.datetime ≠ b.datetime)) :
    analyze_steady_states l1 = analyze_steady_states l2 := by
  unfold analyze_steady_states
  by_cases h1 : l1 = []
  · subst h1
    have h2 : l2 = [] := hp.symm.eq_nil
    subst h2
    rfl
  · have h2 : l2 ≠ [] := fun h0 => h1 (h0 ▸ hp).eq_nil
    rw [if_neg h1, if_neg h2, sort_records_eq_of_perm hp hd]

/-- Witness for the amended C6: two orders of two distinct-timestamp
records. -/
theorem claim_C6_amended_witness :
    c6W1.Perm c6W2 ∧
      c6W1.Pairwise (fun a b => a.datetime ≠ b.datetime) ∧
      analyze_steady_states c6W1 = analyze_steady_states c6W2 := by
  have hperm : c6W1.Perm c6W2 := by
    simp only [c6W1, c6W2]
    exact List.Perm.swap _ _ _
  have hpw : c6W1.Pairwise (fun a b => a.datetime ≠ b.datetime) := by
    simp [c6W1, exRec]
    try norm_num
  exact ⟨hperm, hpw, claim_C6_amended_determinism c6W1 c6W2 hperm hpw⟩

end SteadyState

namespace SteadyState

/-! ### Evaluation lemmas for the `c6L1`/`c6L2` inputs -/

lemma sort_c6L1 : sort_records c6L1 = c6L1 := rfl

lemma sort_c6L2 : sort_records c6L2 = c6L2 := rfl

lemma profileEntry_c6_a : profileEntry [100, 200, 110] = some ⟨110, 110, 200, 90⟩ := by
  unfold profileEntry
  try simp [percentile, percentileIdx, pymedian]
  try norm_num
  try simp
  try norm_num

lemma profileEntry_c6_b : profileEntry [200, 110, 111] = some ⟨111, 111, 200, 89⟩ := by
  unfold profileEntry
  try simp [percentile, percentileIdx, pymedian]
  try norm_num
  try simp
  try norm_num

lemma profileEntry_c6_c : profileEntry [200, 100, 110] = some ⟨110, 110, 200, 90⟩ := by
  unfold profileEntry
  try simp [percentile, percentileIdx, pymedian]
  try norm_num
  try simp
  try norm_num

lemma profileEntry_c6_d : profileEntry [100, 110, 111] = some ⟨110, 110, 111, 1⟩ := by
  unfold profileEntry
  try simp [percentile, percentileIdx, pymedian]
  try norm_num
  try simp
  try norm_num

lemma profileEntry_c6_80 : profileEntry [80, 80, 80] = some ⟨80, 80, 80, 0⟩ := by
  unfold profileEntry
  try simp [percentile, percentileIdx, pymedian]
  try norm_num
  try simp
  try norm_num

lemma profileEntry_c6_70 : profileEntry [70, 70, 70] = some ⟨70, 70, 70, 0⟩ := by
  unfold profileEntry
  try simp [percentile, percentileIdx, pymedian]
  try norm_num
  try simp
  try norm_num

lemma cp_c6L1w0 :
    compute_profile [exRec 0 100 80 40 70, exRec 0 200 80 40 70,
      exRec 86400 110 80 40 70] = c6P0 := by
  unfold compute_profile
  simp [safe_get_metric_values, Record.get, exRec, c6P0, profileEntry_c6_a,
    profileEntry_c6_80, profileEntry_c1_pp, profileEntry_c6_70]

lemma cp_c6L1w1 :
    compute_profile [exRec 0 200 80 40 70, exRec 86400 110 80 40 70,
      exRec 172800 111 80 40 70] = c6P1 := by
  unfold compute_profile
  simp [safe_get_metric_values, Record.get, exRec, c6P1, profileEntry_c6_b,
    profileEntry_c6_80, profileEntry_c1_pp, profileEntry_c6_70]

lemma cp_c6L2w0 :
    compute_profile [exRec 0 200 80 40 70, exRec 0 100 80 40 70,
      exRec 86400 110 80 40 70] = c6P0 := by
  unfold compute_profile
  simp [safe_get_metric_values, Record.get, exRec, c6P0, profileEntry_c6_c,
    profileEntry_c6_80, profileEntry_c1_pp, profileEntry_c6_70]

lemma cp_c6L2w1 :
    compute_profile [exRec 0 100 80 40 70, exRec 86400 110 80 40 70,
      exRec 172800 111 80 40 70] = c6P2 := by
  unfold compute_profile
  simp [safe_get_metric_values, Record.get, exRec, c6P2, profileEntry_c6_d,
    profileEntry_c6_80, profileEntry_c1_pp, profileEntry_c6_70]

lemma st_c6P0 : compute_stability c6P0 = 43/943 := by
  unfold compute_stability
  simp [c6P0, emptyProfile, METRICS, Profile.get, METRIC_WEIGHTS]
  try norm_num

lemma st_c6P1 : compute_stability c6P1 = 43/933 := by
  unfold compute_stability
  simp [c6P1, emptyProfile, METRICS, Profile.get, METRIC_WEIGHTS]
  try norm_num

lemma st_c6P2 : compute_stability c6P2 = 43/53 := by
  unfold compute_stability
  simp [c6P2, emptyProfile, METRICS, Profile.get, METRIC_WEIGHTS]
  try norm_num

lemma gap_c6_early :
    get_max_gap_days [exRec 0 100 80 40 70, exRec 0 200 80 40 70,
      exRec 86400 110 80 40 70] = 1 := by
  unfold get_max_gap_days
  simp [exRec]
  try norm_num

lemma gap_c6_early2 :
    get_max_gap_days [exRec 0 200 80 40 70, exRec 0 100 80 40 70,
      exRec 86400 110 80 40 70] = 1 := by
  unfold get_max_gap_days
  simp [exRec]
  try norm_num

lemma gap_c6_late1 :
    get_max_gap_days [exRec 0 200 80 40 70, exRec 86400 110 80 40 70,
      exRec 172800 111 80 40 70] = 1 := by
  unfold get_max_gap_days
  simp [exRec]
  try norm_num

lemma gap_c6_late2 :
    get_max_gap_days [exRec 0 100 80 40 70, exRec 86400 110 80 40 70,
      exRec 172800 111 80 40 70] = 1 := by
  unfold get_max_gap_days
  simp [exRec]
  try norm_num

lemma mk_c6L1_0 : mkWindow c6L1 3 0 = c6win0 := by
  simp only [mkWindow]
  rw [show (c6L1.drop 0).take 3 = [exRec 0 100 80 40 70, exRec 0 200 80 40 70,
      exRec 86400 110 80 40 70] from rfl,
    show c6L1.getD 0 default = exRec 0 100 80 40 70 from rfl,
    show c6L1.getD (0 + 3 - 1) default = exRec 86400 110 80 40 70 from rfl,
    cp_c6L1w0, st_c6P0, gap_c6_early]
  simp [exRec, c6win0]
  try norm_num

lemma mk_c6L1_1 : mkWindow c6L1 3 1 = c6win1 := by
  simp only [mkWindow]
  rw [show (c6L1.drop 1).take 3 = [exRec 0 200 80 40 70, exRec 86400 110 80 40 70,
      exRec 172800 111 80 40 70] from rfl,
    show c6L1.getD 1 default = exRec 0 200 80 40 70 from rfl,
    show c6L1.getD (1 + 3 - 1) default = exRec 172800 111 80 40 70 from rfl,
    cp_c6L1w1, st_c6P1, gap_c6_late1]
  simp [exRec, c6win1]
  try norm_num

lemma mk_c6L2_0 : mkWindow c6L2 3 0 = c6win0 := by
  simp only [mkWindow]
  rw [show (c6L2.drop 0).take 3 = [exRec 0 200 80 40 70, exRec 0 100 80 40 70,
      exRec 86400 110 80 40 70] from rfl,
    show c6L2.getD 0 default = exRec 0 200 80 40 70 from rfl,
    show c6L2.getD (0 + 3 - 1) default = exRec 86400 110 80 40 70 from rfl,
    cp_c6L2w0, st_c6P0, gap_c6_early2]
  simp [exRec, c6win0]
  try norm_num

lemma mk_c6L2_1 : mkWindow c6L2 3 1 = c6win2 := by
  simp only [mkWindow]
  rw [show (c6L2.drop 1).take 3 = [exRec 0 100 80 40 70, exRec 86400 110 80 40 70,
      exRec 172800 111 80 40 70] from rfl,
    show c6L2.getD 1 default = exRec 0 100 80 40 70 from rfl,
    show c6L2.getD (1 + 3 - 1) default = exRec 172800 111 80 40 70 from rfl,
    cp_c6L2w1, st_c6P2, gap_c6_late2]
  simp [exRec, c6win2]
  try norm_num

lemma slide3_c6L1 : slide_windows c6L1 3 = [c6win0, c6win1] := by
  unfold slide_windows
  rw [sort_c6L1]
  simp [show c6L1.length = 4 from rfl, show List.range 2 = [0, 1] from rfl,
    mk_c6L1_0, mk_c6L1_1]

lemma slide3_c6L2 : slide_windows c6L2 3 = [c6win0, c6win2] := by
  unfold slide_windows
  rw [sort_c6L2]
  simp [show c6L2.length = 4 from rfl, show List.range 2 = [0, 1] from rfl,
    mk_c6L2_0, mk_c6L2_1]

lemma baseline_c6L1 : select_baseline [c6win0, c6win1] = some c6win1 := by
  unfold select_baseline
  simp [c6win0, c6win1]
  norm_num

lemma baseline_c6L2 : select_baseline [c6win0, c6win2] = some c6win2 := by
  unfold select_baseline
  simp [c6win0, c6win2]
  norm_num

lemma recent_c6L1 : select_recent [c6win0, c6win1] c6win1 = some c6win1 := by
  unfold select_recent
  simp [List.insertionSort, List.orderedInsert, distLe, c6win0, c6win1]
  norm_num [findQualified]

lemma recent_c6L2 : select_recent [c6win0, c6win2] c6win2 = some c6win2 := by
  unfold select_recent
  simp [List.insertionSort, List.orderedInsert, distLe, c6win0, c6win2]
  norm_num [findQualified]

lemma traj_c6L1 : trajUpdate "3pt" c6win1 c6win1 ⟨[], [], [], []⟩ = c6traj1 := by
  unfold trajUpdate
  simp [METRICS, c6win1, c6P1, c6traj1, Profile.get, TrajMap.append1]
  try norm_num

lemma traj_c6L2 : trajUpdate "3pt" c6win2 c6win2 ⟨[], [], [], []⟩ = c6traj2 := by
  unfold trajUpdate
  simp [METRICS, c6win2, c6P2, c6traj2, Profile.get, TrajMap.append1]
  try norm_num

lemma scaleStep_skip (records : List Record)
    (acc : List (String × ScaleResult) × TrajMap) (ls : String × ℕ)
    (h : slide_windows records ls.2 = []) : scaleStep records acc ls = acc := by
  unfold scaleStep
  rw [h]
  rfl

lemma trajectory_c6L1 : (analyzeSorted c6L1).trajectory = c6traj1 := by
  simp only [analyzeSorted, WINDOW_SIZES]
  rw [List.foldl_cons]
  rw [show scaleStep c6L1 ([], ⟨[], [], [], []⟩) ("3pt", 3) =
      ([("3pt", ⟨c6win1, c6win1⟩)], c6traj1) by
    simp only [scaleStep]
    rw [slide3_c6L1, baseline_c6L1]
    dsimp only
    rw [recent_c6L1]
    dsimp only
    rw [traj_c6L1]
    rfl]
  rw [List.foldl_cons, scaleStep_skip _ _ _ (by rfl)]
  rw [List.foldl_cons, scaleStep_skip _ _ _ (by rfl)]
  rw [List.foldl_cons, scaleStep_skip _ _ _ (by rfl)]
  rw [List.foldl_cons, scaleStep_skip _ _ _ (by rfl)]
  rw [List.foldl_nil]

lemma trajectory_c6L2 : (analyzeSorted c6L2).trajectory = c6traj2 := by
  simp only [analyzeSorted, WINDOW_SIZES]
  rw [List.foldl_cons]
  rw [show scaleStep c6L2 ([], ⟨[], [], [], []⟩) ("3pt", 3) =
      ([("3pt", ⟨c6win2, c6win2⟩)], c6traj2) by
    simp only [scaleStep]
    rw [slide3_c6L2, baseline_c6L2]
    dsimp only
    rw [recent_c6L2]
    dsimp only
    rw [traj_c6L2]
    rfl]
  rw [List.foldl_cons, scaleStep_skip _ _ _ (by rfl)]
  rw [List.foldl_cons, scaleStep_skip _ _ _ (by rfl)]
  rw [List.foldl_cons, scaleStep_skip _ _ _ (by rfl)]
  rw [List.foldl_cons, scaleStep_skip _ _ _ (by rfl)]
  rw [List.foldl_nil]

/-- C6 counterexample.  The two lists are permutations of each other, two
records sharing timestamp 0; the stable sort keeps their input order, so
the second size-3 window differs and the analyses disagree (sbp baseline
111 versus 110). -/
theorem claim_C6_counterexample :
    c6L1.Perm c6L2 ∧
      analyze_steady_states c6L1 ≠ analyze_steady_states c6L2 := by
  constructor
  · simp only [c6L1, c6L2]
    exact List.Perm.swap _ _ _
  · intro h
    have h2 := congrArg (fun o => o.map AnalysisResult.trajectory) h
    have e1 : analyze_steady_states c6L1 = some (analyzeSorted c6L1) := by
      unfold analyze_steady_states
      rw [if_neg (by simp [c6L1]), sort_c6L1]
    have e2 : analyze_steady_states c6L2 = some (analyzeSorted c6L2) := by
      unfold analyze_steady_states
      rw [if_neg (by simp [c6L2]), sort_c6L2]
    rw [e1, e2] at h2
    simp only [Option.map_some'] at h2
    rw [trajectory_c6L1, trajectory_c6L2] at h2
    simp only [c6traj1, c6traj2, TrajMap.mk.injEq, List.cons.injEq,
      TrajStep.mk.injEq] at h2
    norm_num at h2

end SteadyState

